import Mathlib

/-!
Shallow embedding of the birdeye-go HTTP client library core
(client construction, retry policy, transport, envelope decoding,
batched multi-price lookups, and the error model), together with
theorems checking the specification claims against it.

Conventions of the embedding:
- Go `time.Duration` values are `Int` nanosecond counts.
- Go errors are the inductive `GoError`; `fmt.Errorf` with `%w` is the
  `wrapped` constructor, `errors.New` and `fmt.Errorf` without `%w` are
  `plainError`, errors produced by library code (json, io, net) are
  `libError`, and a returned `*APIError` is the `apiError` constructor.
- Library side effects (request execution, JSON unmarshalling, URL
  encoding) are passed in as explicit function parameters, so the
  embedded operations are pure and also report the list of HTTP
  requests they issued.
-/

/-- Models shopspring decimal.Decimal as an exact coefficient and
exponent pair; the client never performs arithmetic on it. -/
structure Decimal where
  value : Int
  exp : Int
deriving DecidableEq, Repr

/-- APIError from errors.go: statusCode, message and path fields. -/
structure APIError where
  statusCode : Int
  message : String
  path : String
deriving DecidableEq, Repr

/-- Error() of APIError from errors.go. -/
def APIError.errorText (e : APIError) : String :=
  "birdeye api error: " ++ e.path ++ " returned status " ++ toString e.statusCode ++ ": " ++ e.message

/-- IsNotFound from errors.go: statusCode == http.StatusNotFound (404). -/
def APIError.IsNotFound (e : APIError) : Bool :=
  e.statusCode == 404

/-- IsRateLimited from errors.go: statusCode == http.StatusTooManyRequests (429). -/
def APIError.IsRateLimited (e : APIError) : Bool :=
  e.statusCode == 429

/-- IsServerError from errors.go: statusCode >= 500. -/
def APIError.IsServerError (e : APIError) : Bool :=
  e.statusCode ≥ 500

/-- IsClientError from errors.go: 400 <= statusCode < 500. -/
def APIError.IsClientError (e : APIError) : Bool :=
  e.statusCode ≥ 400 && e.statusCode < 500

/-- Go error values as the client produces and consumes them.
`wrapped` is fmt.Errorf with a `%w` verb (participates in the unwrap
chain); `plainError` is errors.New or fmt.Errorf without `%w`;
`libError` stands for an opaque error created by library code. -/
inductive GoError where
  | plainError (msg : String)
  | apiError (statusCode : Int) (message : String) (path : String)
  | libError (msg : String)
  | wrapped (context : String) (inner : GoError)
deriving DecidableEq, Repr

/-- The Error() text of a Go error in this embedding. -/
def GoError.errMsg : GoError → String
  | .plainError m => m
  | .apiError s m p => (APIError.mk s m p).errorText
  | .libError m => m
  | .wrapped c e => c ++ ": " ++ e.errMsg

/-- IsAPIError from errors.go: walks the errors.As unwrap chain and
extracts the first APIError found, if any. -/
def IsAPIError : GoError → Option APIError
  | .apiError s m p => some (APIError.mk s m p)
  | .wrapped _ e => IsAPIError e
  | _ => none

/-- The response envelope of parseResponse in client.go:
success flag, optional message (empty string when absent) and data. -/
structure Envelope (T : Type) where
  success : Bool
  message : String
  data : T
deriving DecidableEq, Repr

/-- parseResponse from client.go, with json.Unmarshal abstracted as the
function parameter um (returning the decoded envelope or the message of
the json library error). -/
def parseResponse {T : Type} (um : String → Except String (Envelope T)) (body : String) :
    Except GoError T :=
  match um body with
  | .error e => .error (.wrapped "unmarshal response" (.libError e))
  | .ok resp =>
    if !resp.success then
      if resp.message ≠ "" then .error (.plainError ("birdeye api error: " ++ resp.message))
      else .error (.plainError "birdeye api returned success=false")
    else .ok resp.data

/-- DefaultBaseURL constant from client.go. -/
def DefaultBaseURL : String := "https://public-api.birdeye.so"

/-- One millisecond as Go time.Duration nanoseconds. -/
def millisecond : Int := 1000000

/-- One second as Go time.Duration nanoseconds. -/
def second : Int := 1000000000

/-- DefaultTimeout constant from client.go (10s). -/
def DefaultTimeout : Int := 10 * second

/-- DefaultMaxRetries constant from client.go. -/
def DefaultMaxRetries : Int := 3

/-- DefaultRetryWaitMin constant from client.go (500ms). -/
def DefaultRetryWaitMin : Int := 500 * millisecond

/-- DefaultRetryWaitMax constant from client.go (3s). -/
def DefaultRetryWaitMax : Int := 3 * second

/-- A logger value: the default no-op logger or a user-supplied one
identified by an id. -/
inductive LoggerV where
  | noop
  | custom (id : Nat)
deriving DecidableEq, Repr

/-- The internal config struct from client.go. A Go `*http.Client`
pointer is `Option Nat`: `none` is the nil pointer, `some id` a
concrete client identity. -/
structure Config where
  baseURL : String
  timeout : Int
  maxRetries : Int
  retryWaitMin : Int
  retryWaitMax : Int
  logger : LoggerV
  httpClient : Option Nat
deriving DecidableEq, Repr

/-- An Option value (functional option) from client.go. -/
def COption : Type := Config → Config

/-- WithBaseURL from client.go. -/
def WithBaseURL (url : String) : COption :=
  fun c => { c with baseURL := url }

/-- WithTimeout from client.go. -/
def WithTimeout (d : Int) : COption :=
  fun c => { c with timeout := d }

/-- WithMaxRetries from client.go. -/
def WithMaxRetries (n : Int) : COption :=
  fun c => { c with maxRetries := n }

/-- WithRetryWait from client.go: assigns retryWaitMin and retryWaitMax. -/
def WithRetryWait (min max : Int) : COption :=
  fun c => { c with retryWaitMin := min, retryWaitMax := max }

/-- WithLogger from client.go. -/
def WithLogger (l : LoggerV) : COption :=
  fun c => { c with logger := l }

/-- WithHTTPClient from client.go (the argument is a Go pointer, so nil
is representable). -/
def WithHTTPClient (client : Option Nat) : COption :=
  fun c => { c with httpClient := client }

/-- The defaulted config NewClient builds before applying options. -/
def defaultConfig : Config :=
  { baseURL := DefaultBaseURL
    timeout := DefaultTimeout
    maxRetries := DefaultMaxRetries
    retryWaitMin := DefaultRetryWaitMin
    retryWaitMax := DefaultRetryWaitMax
    logger := LoggerV.noop
    httpClient := none }

/-- Applying a list of options in call order, as the loop in NewClient
does. -/
def applyOpts (opts : List COption) (c : Config) : Config :=
  opts.foldl (fun cfg o => o cfg) c

/-- The effective HTTP client of a constructed Client: either the
built-in retryable client (carrying the retry settings and the builtin
CheckRetry policy) or a caller-supplied custom client. -/
inductive HTTPClientV where
  | retryable (retryMax : Int) (retryWaitMin : Int) (retryWaitMax : Int) (timeout : Int)
  | custom (id : Nat)
deriving DecidableEq, Repr

/-- The Client struct from client.go. -/
structure ClientV where
  apiKey : String
  baseURL : String
  httpClient : HTTPClientV
  logger : LoggerV
deriving DecidableEq, Repr

/-- NewClient from client.go: rejects an empty api key, applies
defaults then options, and uses the custom HTTP client when one was
provided, else builds the retryable client from the config. -/
def NewClient (apiKey : String) (opts : List COption) : Except GoError ClientV :=
  if apiKey = "" then .error (.plainError "api key is required")
  else
    let cfg := applyOpts opts defaultConfig
    let httpClient :=
      match cfg.httpClient with
      | some ref => HTTPClientV.custom ref
      | none =>
        HTTPClientV.retryable cfg.maxRetries cfg.retryWaitMin cfg.retryWaitMax cfg.timeout
    .ok { apiKey := apiKey, baseURL := cfg.baseURL, httpClient := httpClient, logger := cfg.logger }

/-- The CheckRetry closure installed by NewClient on the retryable
client. Arguments: the context error (ctx.Err()), the transport error
of the attempt, and the response status code (only consulted by the Go
code when the transport error is nil, matching the nil-resp contract
of retryablehttp). -/
def checkRetry (ctxErr : Option GoError) (err : Option GoError) (statusCode : Int) :
    Bool × Option GoError :=
  match ctxErr with
  | some ce => (false, some ce)
  | none =>
    match err with
    | some e => (true, some e)
    | none =>
      if statusCode = 429 then (true, none)
      else if statusCode ≥ 500 then (true, none)
      else (false, none)

/-- An outgoing HTTP request as doGet builds it. -/
structure Request where
  url : String
  headers : List (String × String)
deriving DecidableEq, Repr

deriving instance DecidableEq for Except

/-- An executed HTTP response: status code and the outcome of reading
the body with io.ReadAll. -/
structure HTTPResponse where
  statusCode : Int
  bodyRead : Except String String
deriving DecidableEq, Repr

/-- The ambient HTTP machinery doGet relies on: url.Values.Encode, the
possible failure of http.NewRequestWithContext on a given URL, and
request execution by the HTTP client. -/
structure Net where
  encode : List (String × String) → String
  mkReqErr : String → Option GoError
  exec : Request → Except GoError HTTPResponse

/-- The request URL doGet builds: baseURL + path, with the encoded
query appended after a question mark only when params are non-empty. -/
def requestURL (cl : ClientV) (net : Net) (path : String) (params : List (String × String)) :
    String :=
  if params.isEmpty then cl.baseURL ++ path
  else cl.baseURL ++ path ++ "?" ++ net.encode params

/-- The request doGet creates: the URL plus the three fixed headers. -/
def mkRequest (cl : ClientV) (url : String) : Request :=
  { url := url
    headers := [("X-API-KEY", cl.apiKey), ("Accept", "application/json"), ("x-chain", "solana")] }

/-- doGet from client.go. Returns the result together with the list of
requests actually handed to the HTTP client (empty when request
creation failed, a singleton otherwise). -/
def doGet (cl : ClientV) (net : Net) (path : String) (params : List (String × String)) :
    Except GoError String × List Request :=
  match net.mkReqErr (requestURL cl net path params) with
  | some e => (.error (.wrapped "create request" e), [])
  | none =>
    match net.exec (mkRequest cl (requestURL cl net path params)) with
    | .error e =>
      (.error (.wrapped "execute request" e), [mkRequest cl (requestURL cl net path params)])
    | .ok resp =>
      match resp.bodyRead with
      | .error e =>
        (.error (.wrapped "read response body" (.libError e)),
         [mkRequest cl (requestURL cl net path params)])
      | .ok body =>
        if resp.statusCode ≠ 200 then
          (.error (.apiError resp.statusCode body path),
           [mkRequest cl (requestURL cl net path params)])
        else (.ok body, [mkRequest cl (requestURL cl net path params)])

/-- PriceData from the price endpoint file. -/
structure PriceData where
  value : Decimal
  updateUnixTime : Int
  updateHumanTime : String
  priceChange24h : Decimal
deriving DecidableEq, Repr

/-- TokenExtensions from token_overview.go. -/
structure TokenExtensions where
  coingecko : String
  twitter : String
  website : String
  telegram : String
  discord : String
  description : String
deriving DecidableEq, Repr

/-- TokenOverview from token_overview.go. -/
structure TokenOverview where
  address : String
  symbol : String
  name : String
  decimals : Int
  logoURI : String
  liquidity : Decimal
  price : Decimal
  priceChange24hPercent : Decimal
  volume24h : Decimal
  volume24hUSD : Decimal
  volume24hChangePercent : Decimal
  marketCap : Decimal
  supply : Decimal
  circulatingSupply : Decimal
  holder : Int
  trade24h : Int
  trade24hChangePercent : Decimal
  buy24h : Int
  sell24h : Int
  uniqueWallet24h : Int
  uniqueWallet24hChangePercent : Decimal
  lastTradeUnixTime : Int
  lastTradeHumanTime : String
  extensions : Option TokenExtensions
deriving DecidableEq, Repr

/-- TransferFeeData from the token security file. -/
structure TransferFeeData where
  transferFeeBPS : Int
  maxFee : String
  feeAuthority : String
  withdrawAuthority : String
deriving DecidableEq, Repr

/-- TokenSecurity from the token security file. -/
structure TokenSecurity where
  mintAuthority : Option String
  freezeAuthority : Option String
  creatorAddress : String
  creatorBalance : String
  creatorPercentage : String
  ownerAddress : String
  ownerBalance : String
  ownerPercentage : String
  top10HolderBalance : String
  top10HolderPercent : String
  top10UserBalance : String
  top10UserPercent : String
  totalSupply : String
  isToken2022 : Bool
  transferFeeEnable : Bool
  transferFeeData : Option TransferFeeData
  nonTransferable : Bool
  mutableMetadata : Bool
deriving DecidableEq, Repr

/-- HasMintAuthority from the token security file. -/
def TokenSecurity.HasMintAuthority (ts : TokenSecurity) : Bool :=
  match ts.mintAuthority with
  | some a => a ≠ ""
  | none => false

/-- HasFreezeAuthority from the token security file. -/
def TokenSecurity.HasFreezeAuthority (ts : TokenSecurity) : Bool :=
  match ts.freezeAuthority with
  | some a => a ≠ ""
  | none => false

/-- GetPrice from the price endpoint file: validates the address, then
issues one GET to /defi/price and decodes the envelope. Also reports
the issued requests. -/
def GetPrice (cl : ClientV) (net : Net) (um : String → Except String (Envelope PriceData))
    (address : String) : Except GoError PriceData × List Request :=
  if address = "" then (.error (.apiError 400 "address is required" "/defi/price"), [])
  else
    let d := doGet cl net "/defi/price" [("address", address)]
    match d.1 with
    | .error e => (.error e, d.2)
    | .ok body =>
      match parseResponse um body with
      | .error e => (.error e, d.2)
      | .ok price => (.ok price, d.2)

/-- GetTokenOverview from token_overview.go: validates the address,
then issues one GET to /defi/token_overview and decodes the envelope. -/
def GetTokenOverview (cl : ClientV) (net : Net)
    (um : String → Except String (Envelope TokenOverview)) (address : String) :
    Except GoError TokenOverview × List Request :=
  if address = "" then (.error (.apiError 400 "address is required" "/defi/token_overview"), [])
  else
    let d := doGet cl net "/defi/token_overview" [("address", address)]
    match d.1 with
    | .error e => (.error e, d.2)
    | .ok body =>
      match parseResponse um body with
      | .error e => (.error e, d.2)
      | .ok overview => (.ok overview, d.2)

/-- GetTokenSecurity from the token security file: validates the
address, then issues one GET to /defi/token_security and decodes the
envelope. -/
def GetTokenSecurity (cl : ClientV) (net : Net)
    (um : String → Except String (Envelope TokenSecurity)) (address : String) :
    Except GoError TokenSecurity × List Request :=
  if address = "" then (.error (.apiError 400 "address is required" "/defi/token_security"), [])
  else
    let d := doGet cl net "/defi/token_security" [("address", address)]
    match d.1 with
    | .error e => (.error e, d.2)
    | .ok body =>
      match parseResponse um body with
      | .error e => (.error e, d.2)
      | .ok security => (.ok security, d.2)

/-- A Go map of address to decimal price, in iteration order. -/
abbrev GoMap : Type := List (String × Decimal)

/-- A single Go map assignment m[k] = v: replaces the binding of k if
present, appends otherwise. -/
def goInsert : GoMap → String → Decimal → GoMap
  | [], k, v => [(k, v)]
  | p :: t, k, v => if p.1 == k then (k, v) :: t else p :: goInsert t k v

/-- The merge loop of GetMultiplePrices: assigns every entry of the
decoded chunk map into the accumulated result map. -/
def mergeInto (acc : GoMap) (m : GoMap) : GoMap :=
  m.foldl (fun a p => goInsert a p.1 p.2) acc

/-- Go map lookup in this embedding. -/
def goLookup : GoMap → String → Option Decimal
  | [], _ => none
  | p :: t, k => if p.1 == k then some p.2 else goLookup t k

/-- Specification-side merge observation: the value a key ends up with
when the maps are merged in order with last write winning. -/
def lastWins (ms : List GoMap) (k : String) : Option Decimal :=
  ms.foldl (fun acc m => match goLookup m k with | some v => some v | none => acc) none

/-- Merging a list of chunk maps in order into one map, starting empty. -/
def mergeAll (ms : List GoMap) : GoMap :=
  ms.foldl mergeInto []

/-- Fuel-indexed chunking helper (fuel bounds the recursion depth). -/
def chunksAux : Nat → List String → List (List String)
  | 0, _ => []
  | _, [] => []
  | fuel + 1, l => l.take 100 :: chunksAux fuel (l.drop 100)

/-- The batches the GetMultiplePrices loop slices the address list
into: consecutive runs of at most 100 addresses. -/
def chunks100 (l : List String) : List (List String) :=
  chunksAux l.length l

/-- The query parameters of one multi-price chunk request. -/
def chunkParams (c : List String) : List (String × String) :=
  [("list_address", String.intercalate "," c)]

/-- The request one multi-price chunk issues. -/
def multiPriceRequest (cl : ClientV) (net : Net) (c : List String) : Request :=
  mkRequest cl (requestURL cl net "/defi/multi_price" (chunkParams c))

/-- The body of one iteration of the GetMultiplePrices loop: doGet on
the chunk followed by envelope decoding. -/
def chunkFetch (cl : ClientV) (net : Net) (um : String → Except String (Envelope GoMap))
    (c : List String) : Except GoError GoMap :=
  match (doGet cl net "/defi/multi_price" (chunkParams c)).1 with
  | .error e => .error e
  | .ok body => parseResponse um body

/-- The batching loop of GetMultiplePrices over the chunk list,
threading the accumulated result map and collecting issued requests. -/
def getMultiLoop (cl : ClientV) (net : Net) (um : String → Except String (Envelope GoMap)) :
    List (List String) → GoMap → Except GoError GoMap × List Request
  | [], acc => (.ok acc, [])
  | c :: cs, acc =>
    match doGet cl net "/defi/multi_price" (chunkParams c) with
    | (.error e, reqs) => (.error e, reqs)
    | (.ok body, reqs) =>
      match parseResponse um body with
      | .error e => (.error e, reqs)
      | .ok m =>
        ((getMultiLoop cl net um cs (mergeInto acc m)).1,
         reqs ++ (getMultiLoop cl net um cs (mergeInto acc m)).2)

/-- GetMultiplePrices from the price endpoint file: empty input short
circuits to an empty map, any empty address is rejected before any
request, and otherwise the addresses are processed in batches of 100. -/
def GetMultiplePrices (cl : ClientV) (net : Net)
    (um : String → Except String (Envelope GoMap)) (addresses : List String) :
    Except GoError GoMap × List Request :=
  if addresses.isEmpty then (.ok [], [])
  else if addresses.any (fun a => a == "") then
    (.error (.apiError 400 "address list contains empty string" "/defi/multi_price"), [])
  else getMultiLoop cl net um (chunks100 addresses) []

/-! ### Supporting lemmas about chunking -/

theorem chunksAux_congr (fuel₁ : Nat) :
    ∀ (fuel₂ : Nat) (l : List String), l.length ≤ fuel₁ → l.length ≤ fuel₂ →
      chunksAux fuel₁ l = chunksAux fuel₂ l := by
  induction fuel₁ with
  | zero =>
    intro fuel₂ l h1 _
    have hl : l = [] := List.eq_nil_of_length_eq_zero (Nat.le_zero.mp h1)
    subst hl
    cases fuel₂ <;> rfl
  | succ n ih =>
    intro fuel₂ l h1 h2
    cases l with
    | nil => cases fuel₂ <;> rfl
    | cons a t =>
      cases fuel₂ with
      | zero => simp at h2
      | succ m =>
        simp only [chunksAux]
        congr 1
        apply ih
        · have : ((a :: t).drop 100).length = (a :: t).length - 100 := List.length_drop 100 _
          omega
        · have : ((a :: t).drop 100).length = (a :: t).length - 100 := List.length_drop 100 _
          omega

theorem chunks100_nil : chunks100 [] = [] := rfl

theorem chunks100_cons (l : List String) (h : l ≠ []) :
    chunks100 l = l.take 100 :: chunks100 (l.drop 100) := by
  unfold chunks100
  cases l with
  | nil => exact absurd rfl h
  | cons a t =>
    simp only [List.length_cons, chunksAux]
    congr 1
    apply chunksAux_congr
    · have : ((a :: t).drop 100).length = (a :: t).length - 100 := List.length_drop 100 _
      simp only [List.length_cons] at this
      omega
    · exact Nat.le_refl _

theorem chunks100_length_aux (n : Nat) :
    ∀ l : List String, l.length ≤ n → (chunks100 l).length = (l.length + 99) / 100 := by
  induction n with
  | zero =>
    intro l h
    have hl : l = [] := List.eq_nil_of_length_eq_zero (Nat.le_zero.mp h)
    subst hl
    rfl
  | succ n ih =>
    intro l h
    by_cases hl : l = []
    · subst hl; rfl
    · rw [chunks100_cons l hl, List.length_cons]
      have hdrop : (l.drop 100).length = l.length - 100 := List.length_drop 100 _
      have hpos : 0 < l.length := List.length_pos.mpr hl
      rw [ih (l.drop 100) (by omega)]
      omega

theorem chunks100_length (l : List String) :
    (chunks100 l).length = (l.length + 99) / 100 :=
  chunks100_length_aux l.length l (Nat.le_refl _)

theorem chunks100_flatten_aux (n : Nat) :
    ∀ l : List String, l.length ≤ n → (chunks100 l).flatten = l := by
  induction n with
  | zero =>
    intro l h
    have hl : l = [] := List.eq_nil_of_length_eq_zero (Nat.le_zero.mp h)
    subst hl
    rfl
  | succ n ih =>
    intro l h
    by_cases hl : l = []
    · subst hl; rfl
    · rw [chunks100_cons l hl, List.flatten_cons]
      have hdrop : (l.drop 100).length = l.length - 100 := List.length_drop 100 _
      have hpos : 0 < l.length := List.length_pos.mpr hl
      rw [ih (l.drop 100) (by omega)]
      exact List.take_append_drop 100 l

theorem chunks100_flatten (l : List String) : (chunks100 l).flatten = l :=
  chunks100_flatten_aux l.length l (Nat.le_refl _)

theorem chunks100_size_aux (n : Nat) :
    ∀ l : List String, l.length ≤ n → ∀ c ∈ chunks100 l, c.length ≤ 100 := by
  induction n with
  | zero =>
    intro l h
    have hl : l = [] := List.eq_nil_of_length_eq_zero (Nat.le_zero.mp h)
    subst hl
    intro c hc
    simp [chunks100_nil] at hc
  | succ n ih =>
    intro l h c hc
    by_cases hl : l = []
    · subst hl; simp [chunks100_nil] at hc
    · rw [chunks100_cons l hl] at hc
      rcases List.mem_cons.mp hc with h1 | h2
      · subst h1
        calc (l.take 100).length = min 100 l.length := List.length_take 100 l
        _ ≤ 100 := Nat.min_le_left _ _
      · have hdrop : (l.drop 100).length = l.length - 100 := List.length_drop 100 _
        have hpos : 0 < l.length := List.length_pos.mpr hl
        exact ih (l.drop 100) (by omega) c h2

theorem chunks100_size (l : List String) : ∀ c ∈ chunks100 l, c.length ≤ 100 :=
  chunks100_size_aux l.length l (Nat.le_refl _)

theorem chunks100_of_length_150 (l : List String) (h : l.length = 150) :
    (chunks100 l).map List.length = [100, 50] := by
  have hne : l ≠ [] := by
    intro hl
    subst hl
    simp at h
  rw [chunks100_cons l hne]
  have hdrop : (l.drop 100).length = 50 := by
    rw [List.length_drop, h]
  have hne2 : l.drop 100 ≠ [] := by
    intro hl
    rw [hl] at hdrop
    simp at hdrop
  rw [chunks100_cons _ hne2]
  have hdrop2 : ((l.drop 100).drop 100).length = 0 := by
    rw [List.length_drop, hdrop]
  have hnil : (l.drop 100).drop 100 = [] := List.eq_nil_of_length_eq_zero hdrop2
  rw [hnil, chunks100_nil]
  simp only [List.map_cons, List.map_nil, List.length_take, hdrop, h]
  rfl

/-! ### Supporting lemmas about the map merge -/

theorem goLookup_goInsert (m : GoMap) (k : String) (v : Decimal) (q : String) :
    goLookup (goInsert m k v) q = if q = k then some v else goLookup m q := by
  induction m with
  | nil =>
    simp only [goInsert, goLookup]
    by_cases h : q = k
    · subst h; simp
    · simp [h, Ne.symm h]
  | cons p t ih =>
    simp only [goInsert]
    by_cases hp : p.1 = k
    · simp only [hp, beq_self_eq_true, if_true, goLookup]
      by_cases hq : q = k
      · subst hq; simp
      · have : (k == q) = false := by
          simp [Ne.symm hq]
        simp [this, hq, hp]
    · have hpk : (p.1 == k) = false := by simp [hp]
      simp only [hpk, Bool.false_eq_true, if_false, goLookup]
      by_cases hq : p.1 = q
      · have hqk : ¬ q = k := by
          intro hh
          exact hp (hq.trans hh)
        simp [hq, hqk]
      · have hpq : (p.1 == q) = false := by simp [hq]
        simp [hpq, ih]

theorem goLookup_eq_none_of_not_mem (m : GoMap) (k : String)
    (h : k ∉ m.map Prod.fst) : goLookup m k = none := by
  induction m with
  | nil => rfl
  | cons p t ih =>
    simp only [List.map_cons, List.mem_cons] at h
    push_neg at h
    have hp : (p.1 == k) = false := by
      simp [Ne.symm h.1]
    simp only [goLookup, hp, Bool.false_eq_true, if_false]
    exact ih h.2

theorem goLookup_mergeInto (m : GoMap) :
    ∀ acc : GoMap, (m.map Prod.fst).Nodup → ∀ k,
      goLookup (mergeInto acc m) k =
        match goLookup m k with
        | some v => some v
        | none => goLookup acc k := by
  induction m with
  | nil =>
    intro acc _ k
    rfl
  | cons p t ih =>
    intro acc hnd k
    simp only [List.map_cons, List.nodup_cons] at hnd
    have step : mergeInto acc (p :: t) = mergeInto (goInsert acc p.1 p.2) t := rfl
    rw [step, ih (goInsert acc p.1 p.2) hnd.2 k]
    by_cases hq : p.1 = k
    · have hkt : goLookup t k = none := by
        apply goLookup_eq_none_of_not_mem
        rw [← hq]
        exact hnd.1
      have hbeq : (p.1 == k) = true := by simp [hq]
      simp only [hkt, goLookup, hbeq, if_true, goLookup_goInsert]
      simp [hq]
    · have hbeq : (p.1 == k) = false := by simp [hq]
      simp only [goLookup, hbeq, Bool.false_eq_true, if_false, goLookup_goInsert]
      have : ¬ k = p.1 := fun hh => hq (Eq.symm hh)
      simp only [this, if_false]

theorem goLookup_foldl_mergeInto (ms : List GoMap) :
    ∀ acc : GoMap, (∀ m ∈ ms, (m.map Prod.fst).Nodup) → ∀ k,
      goLookup (ms.foldl mergeInto acc) k =
        ms.foldl (fun a m => match goLookup m k with | some v => some v | none => a)
          (goLookup acc k) := by
  induction ms with
  | nil =>
    intro acc _ k
    rfl
  | cons m ms ih =>
    intro acc h k
    simp only [List.foldl_cons]
    rw [ih (mergeInto acc m) (fun x hx => h x (List.mem_cons_of_mem m hx)) k]
    rw [goLookup_mergeInto m acc (h m (List.mem_cons_self m ms)) k]

theorem goLookup_mergeAll (ms : List GoMap)
    (h : ∀ m ∈ ms, (m.map Prod.fst).Nodup) (k : String) :
    goLookup (mergeAll ms) k = lastWins ms k := by
  unfold mergeAll lastWins
  rw [goLookup_foldl_mergeInto ms [] h k]
  rfl

/-! ### Supporting lemmas about doGet and the batching loop -/

theorem doGet_shape (cl : ClientV) (net : Net) (path : String)
    (params : List (String × String)) (status : Int) (body : String)
    (h1 : net.mkReqErr (requestURL cl net path params) = none)
    (h2 : net.exec (mkRequest cl (requestURL cl net path params)) =
      .ok (HTTPResponse.mk status (.ok body))) :
    doGet cl net path params =
      (if status = 200 then .ok body else .error (.apiError status body path),
       [mkRequest cl (requestURL cl net path params)]) := by
  unfold doGet
  rw [h1]
  simp only
  rw [h2]
  simp only
  by_cases hs : status = 200
  · simp [hs]
  · simp [hs]

theorem doGet_trace_of_ok (cl : ClientV) (net : Net) (path : String)
    (params : List (String × String)) (body : String)
    (h : (doGet cl net path params).1 = .ok body) :
    (doGet cl net path params).2 = [mkRequest cl (requestURL cl net path params)] := by
  unfold doGet at h ⊢
  cases h1 : net.mkReqErr (requestURL cl net path params) with
  | some e => rw [h1] at h; simp at h
  | none =>
    rw [h1] at h
    simp only [] at h ⊢
    cases h2 : net.exec (mkRequest cl (requestURL cl net path params)) with
    | error e => rw [h2] at h
    | ok resp =>
      rw [h2] at h
      simp only [] at h ⊢
      cases h3 : resp.bodyRead with
      | error e => rw [h3] at h
      | ok b =>
        rw [h3] at h
        simp only [] at h ⊢
        by_cases hs : resp.statusCode = 200
        · simp [hs]
        · simp [hs] at h

theorem getMultiLoop_cons_ok (cl : ClientV) (net : Net)
    (um : String → Except String (Envelope GoMap)) (c : List String)
    (cs : List (List String)) (acc m : GoMap)
    (hc : chunkFetch cl net um c = .ok m) :
    getMultiLoop cl net um (c :: cs) acc =
      ((getMultiLoop cl net um cs (mergeInto acc m)).1,
       multiPriceRequest cl net c :: (getMultiLoop cl net um cs (mergeInto acc m)).2) := by
  unfold chunkFetch at hc
  cases hd : doGet cl net "/defi/multi_price" (chunkParams c) with
  | mk res reqs =>
    rw [hd] at hc
    cases res with
    | error e => simp at hc
    | ok body =>
      simp only at hc
      simp only [getMultiLoop, hd, hc]
      have htr : reqs = [mkRequest cl (requestURL cl net "/defi/multi_price" (chunkParams c))] := by
        have := doGet_trace_of_ok cl net "/defi/multi_price" (chunkParams c) body
        rw [hd] at this
        exact this rfl
      rw [htr]
      rfl

theorem getMultiLoop_cons_err (cl : ClientV) (net : Net)
    (um : String → Except String (Envelope GoMap)) (c : List String)
    (cs : List (List String)) (acc : GoMap) (e : GoError)
    (hc : chunkFetch cl net um c = .error e) :
    (getMultiLoop cl net um (c :: cs) acc).1 = .error e := by
  unfold chunkFetch at hc
  cases hd : doGet cl net "/defi/multi_price" (chunkParams c) with
  | mk res reqs =>
    rw [hd] at hc
    cases res with
    | error e0 =>
      simp only at hc
      simp only [getMultiLoop, hd]
      exact congrArg (fun x => x) hc
    | ok body =>
      simp only at hc
      simp only [getMultiLoop, hd, hc]

theorem getMultiLoop_ok (cl : ClientV) (net : Net)
    (um : String → Except String (Envelope GoMap)) (cs : List (List String))
    (f : List String → GoMap) :
    ∀ acc : GoMap, (∀ c ∈ cs, chunkFetch cl net um c = .ok (f c)) →
      getMultiLoop cl net um cs acc =
        (.ok (cs.foldl (fun a c => mergeInto a (f c)) acc),
         cs.map (multiPriceRequest cl net)) := by
  induction cs with
  | nil =>
    intro acc _
    rfl
  | cons c cs ih =>
    intro acc hf
    rw [getMultiLoop_cons_ok cl net um c cs acc (f c) (hf c (List.mem_cons_self c cs))]
    rw [ih (mergeInto acc (f c)) (fun x hx => hf x (List.mem_cons_of_mem c hx))]
    rfl

theorem getMultiLoop_err_after (cl : ClientV) (net : Net)
    (um : String → Except String (Envelope GoMap)) (c : List String)
    (cs₂ : List (List String)) (e : GoError) (f : List String → GoMap)
    (hfail : chunkFetch cl net um c = .error e) :
    ∀ (cs₁ : List (List String)) (acc : GoMap),
      (∀ x ∈ cs₁, chunkFetch cl net um x = .ok (f x)) →
      (getMultiLoop cl net um (cs₁ ++ c :: cs₂) acc).1 = .error e := by
  intro cs₁
  induction cs₁ with
  | nil =>
    intro acc _
    simpa using getMultiLoop_cons_err cl net um c cs₂ acc e hfail
  | cons x cs₁ ih =>
    intro acc hok
    rw [List.cons_append,
      getMultiLoop_cons_ok cl net um x (cs₁ ++ c :: cs₂) acc (f x)
        (hok x (List.mem_cons_self x cs₁))]
    exact ih (mergeInto acc (f x)) (fun y hy => hok y (List.mem_cons_of_mem x hy))

theorem getMultiplePrices_unfold (cl : ClientV) (net : Net)
    (um : String → Except String (Envelope GoMap)) (addresses : List String)
    (hne : addresses ≠ []) (hnm : ∀ a ∈ addresses, a ≠ "") :
    GetMultiplePrices cl net um addresses = getMultiLoop cl net um (chunks100 addresses) [] := by
  unfold GetMultiplePrices
  have h1 : addresses.isEmpty = false := by
    cases addresses with
    | nil => exact absurd rfl hne
    | cons a t => rfl
  have h2 : addresses.any (fun a => a == "") = false := by
    rw [List.any_eq_false]
    intro a ha
    simp [hnm a ha]
  rw [h1, h2]
  simp

/-! ### Concrete clients and networks used by the witnesses -/

/-- A simple query encoder used by the concrete test networks. -/
def encodeSimple (ps : List (String × String)) : String :=
  String.intercalate "&" (ps.map (fun p => p.1 ++ "=" ++ p.2))

/-- A test network that always answers with the given status and body. -/
def netConst (status : Int) (body : String) : Net :=
  { encode := encodeSimple
    mkReqErr := fun _ => none
    exec := fun _ => .ok (HTTPResponse.mk status (.ok body)) }

/-- A concrete client value for witnesses. -/
def testClient : ClientV :=
  ClientV.mk "key" "https://h" (HTTPClientV.custom 0) LoggerV.noop

/-- A concrete two-entry price map for witnesses. -/
def testMap : GoMap := [("a", Decimal.mk 1 0), ("b", Decimal.mk 2 0)]

/-- A concrete unmarshaller always producing a successful envelope
around testMap. -/
def umMap : String → Except String (Envelope GoMap) :=
  fun _ => .ok (Envelope.mk true "" testMap)

/-- The number of fields in which two configs differ. -/
def changedFieldCount (a b : Config) : Nat :=
  (if a.baseURL = b.baseURL then 0 else 1)
  + (if a.timeout = b.timeout then 0 else 1)
  + (if a.maxRetries = b.maxRetries then 0 else 1)
  + (if a.retryWaitMin = b.retryWaitMin then 0 else 1)
  + (if a.retryWaitMax = b.retryWaitMax then 0 else 1)
  + (if a.logger = b.logger then 0 else 1)
  + (if a.httpClient = b.httpClient then 0 else 1)

/-! ### Claim theorems -/

/-- Claim C1: the CheckRetry policy installed by NewClient (when no
custom HTTP client override is given) retries exactly when the attempt
ended in a transport error, or the status is 429, or the status is at
least 500; every other outcome is not retried; and a cancelled context
short circuits to no retry together with the context error, regardless
of the response or error. -/
theorem checkRetry_policy (ctxErr err : Option GoError) (status : Int) :
    (ctxErr = none →
      ((checkRetry ctxErr err status).1 = true ↔ (err ≠ none ∨ status = 429 ∨ status ≥ 500)))
    ∧ (∀ e, ctxErr = some e → checkRetry ctxErr err status = (false, some e)) := by
  constructor
  · intro hc
    subst hc
    cases err with
    | some e => simp [checkRetry]
    | none =>
      simp only [checkRetry]
      by_cases h1 : status = 429
      · simp [h1]
      · by_cases h2 : status ≥ 500
        · simp [h1, h2]
        · simp [h1, h2]
  · intro e he
    subst he
    rfl

/-- Witness for checkRetry_policy: a 503 response with no context
error and no transport error is retried. -/
theorem checkRetry_policy_witness : (checkRetry none none 503).1 = true :=
  ((checkRetry_policy none none 503).1 rfl).mpr (Or.inr (Or.inr (by decide)))

/-- Claim C9: the APIError classification predicates are pure functions
of the status code: IsNotFound iff 404, IsRateLimited iff 429,
IsServerError iff at least 500, IsClientError iff between 400 and 499;
and the categories overlap (404 and 429 are also client errors). -/
theorem apiError_classification (e : APIError) :
    (e.IsNotFound = true ↔ e.statusCode = 404)
    ∧ (e.IsRateLimited = true ↔ e.statusCode = 429)
    ∧ (e.IsServerError = true ↔ e.statusCode ≥ 500)
    ∧ (e.IsClientError = true ↔ (400 ≤ e.statusCode ∧ e.statusCode ≤ 499))
    ∧ ((APIError.mk 404 "m" "p").IsClientError = true
        ∧ (APIError.mk 404 "m" "p").IsNotFound = true)
    ∧ ((APIError.mk 429 "m" "p").IsClientError = true
        ∧ (APIError.mk 429 "m" "p").IsRateLimited = true) := by
  refine ⟨?_, ?_, ?_, ?_, ?_, ?_⟩
  · simp [APIError.IsNotFound]
  · simp [APIError.IsRateLimited]
  · simp [APIError.IsServerError]
  · simp only [APIError.IsClientError, Bool.and_eq_true, decide_eq_true_eq]
    omega
  · exact ⟨by decide, by decide⟩
  · exact ⟨by decide, by decide⟩

/-- Claim C10: each single-token operation returns, on an empty
address, an APIError with status 400, message "address is required"
and its own endpoint path, issuing no HTTP request; such an error
satisfies IsAPIError and IsClientError. -/
theorem single_ops_empty_address (cl : ClientV) (net : Net)
    (umP : String → Except String (Envelope PriceData))
    (umO : String → Except String (Envelope TokenOverview))
    (umS : String → Except String (Envelope TokenSecurity)) :
    GetPrice cl net umP "" = (.error (.apiError 400 "address is required" "/defi/price"), [])
    ∧ GetTokenOverview cl net umO "" =
        (.error (.apiError 400 "address is required" "/defi/token_overview"), [])
    ∧ GetTokenSecurity cl net umS "" =
        (.error (.apiError 400 "address is required" "/defi/token_security"), [])
    ∧ IsAPIError (.apiError 400 "address is required" "/defi/price") =
        some (APIError.mk 400 "address is required" "/defi/price")
    ∧ (APIError.mk 400 "address is required" "/defi/price").IsClientError = true := by
  refine ⟨rfl, rfl, rfl, rfl, by decide⟩

/-- Claim C7: NewClient rejects an empty api key with the validation
error, and with a non-empty key and no options produces a client with
the documented defaults: the public base URL, 10s timeout, 3 retries,
500ms and 3s retry waits, and the no-op logger. -/
theorem newClient_defaults (apiKey : String) (opts : List COption) (h : apiKey ≠ "") :
    NewClient "" opts = .error (.plainError "api key is required")
    ∧ NewClient apiKey [] =
        .ok (ClientV.mk apiKey DefaultBaseURL
          (HTTPClientV.retryable DefaultMaxRetries DefaultRetryWaitMin DefaultRetryWaitMax
            DefaultTimeout)
          LoggerV.noop) := by
  constructor
  · rfl
  · simp only [NewClient, if_neg h]
    rfl

/-- Witness for newClient_defaults at the key "k". -/
theorem newClient_defaults_witness :
    NewClient "k" [] =
      .ok (ClientV.mk "k" DefaultBaseURL
        (HTTPClientV.retryable DefaultMaxRetries DefaultRetryWaitMin DefaultRetryWaitMax
          DefaultTimeout)
        LoggerV.noop) :=
  (newClient_defaults "k" [] (by decide)).2

/-- Claim C8 counterexample: WithRetryWait applied to the default
config changes two fields (retryWaitMin and retryWaitMax), so it does
not overwrite exactly one field. -/
theorem withRetryWait_changes_two_fields :
    changedFieldCount defaultConfig
      (WithRetryWait millisecond (2 * millisecond) defaultConfig) = 2 := by
  decide

/-- Claim C8 (amended): WithBaseURL, WithTimeout, WithMaxRetries,
WithLogger and WithHTTPClient each overwrite exactly one field and
leave every other field unchanged; WithRetryWait overwrites exactly
the two retry-wait fields and leaves every other field unchanged;
options are applied in call order, so the last option writing a field
determines its final value. -/
theorem options_frame_and_order (c : Config) (s : String) (d n lo hi : Int)
    (lg : LoggerV) (hcl : Option Nat) (opts : List COption) (o : COption) :
    ((WithBaseURL s c).baseURL = s ∧ (WithBaseURL s c).timeout = c.timeout
      ∧ (WithBaseURL s c).maxRetries = c.maxRetries
      ∧ (WithBaseURL s c).retryWaitMin = c.retryWaitMin
      ∧ (WithBaseURL s c).retryWaitMax = c.retryWaitMax
      ∧ (WithBaseURL s c).logger = c.logger
      ∧ (WithBaseURL s c).httpClient = c.httpClient)
    ∧ ((WithTimeout d c).timeout = d ∧ (WithTimeout d c).baseURL = c.baseURL
      ∧ (WithTimeout d c).maxRetries = c.maxRetries
      ∧ (WithTimeout d c).retryWaitMin = c.retryWaitMin
      ∧ (WithTimeout d c).retryWaitMax = c.retryWaitMax
      ∧ (WithTimeout d c).logger = c.logger
      ∧ (WithTimeout d c).httpClient = c.httpClient)
    ∧ ((WithMaxRetries n c).maxRetries = n ∧ (WithMaxRetries n c).baseURL = c.baseURL
      ∧ (WithMaxRetries n c).timeout = c.timeout
      ∧ (WithMaxRetries n c).retryWaitMin = c.retryWaitMin
      ∧ (WithMaxRetries n c).retryWaitMax = c.retryWaitMax
      ∧ (WithMaxRetries n c).logger = c.logger
      ∧ (WithMaxRetries n c).httpClient = c.httpClient)
    ∧ ((WithRetryWait lo hi c).retryWaitMin = lo ∧ (WithRetryWait lo hi c).retryWaitMax = hi
      ∧ (WithRetryWait lo hi c).baseURL = c.baseURL
      ∧ (WithRetryWait lo hi c).timeout = c.timeout
      ∧ (WithRetryWait lo hi c).maxRetries = c.maxRetries
      ∧ (WithRetryWait lo hi c).logger = c.logger
      ∧ (WithRetryWait lo hi c).httpClient = c.httpClient)
    ∧ ((WithLogger lg c).logger = lg ∧ (WithLogger lg c).baseURL = c.baseURL
      ∧ (WithLogger lg c).timeout = c.timeout
      ∧ (WithLogger lg c).maxRetries = c.maxRetries
      ∧ (WithLogger lg c).retryWaitMin = c.retryWaitMin
      ∧ (WithLogger lg c).retryWaitMax = c.retryWaitMax
      ∧ (WithLogger lg c).httpClient = c.httpClient)
    ∧ ((WithHTTPClient hcl c).httpClient = hcl ∧ (WithHTTPClient hcl c).baseURL = c.baseURL
      ∧ (WithHTTPClient hcl c).timeout = c.timeout
      ∧ (WithHTTPClient hcl c).maxRetries = c.maxRetries
      ∧ (WithHTTPClient hcl c).retryWaitMin = c.retryWaitMin
      ∧ (WithHTTPClient hcl c).retryWaitMax = c.retryWaitMax
      ∧ (WithHTTPClient hcl c).logger = c.logger)
    ∧ applyOpts (opts ++ [o]) c = o (applyOpts opts c)
    ∧ (applyOpts [WithTimeout d, WithTimeout n] c).timeout = n := by
  refine ⟨⟨rfl, rfl, rfl, rfl, rfl, rfl, rfl⟩, ⟨rfl, rfl, rfl, rfl, rfl, rfl, rfl⟩,
    ⟨rfl, rfl, rfl, rfl, rfl, rfl, rfl⟩, ⟨rfl, rfl, rfl, rfl, rfl, rfl, rfl⟩,
    ⟨rfl, rfl, rfl, rfl, rfl, rfl, rfl⟩, ⟨rfl, rfl, rfl, rfl, rfl, rfl, rfl⟩, ?_, rfl⟩
  simp [applyOpts]

/-- Claim C3 counterexample: on the envelope with success false and
message "boom" the error text is the prefixed "birdeye api error:
boom", not the bare server message; and on an empty message the
generic text is "birdeye api returned success=false", not "operation
unsuccessful". -/
theorem parseResponse_message_counterexample :
    parseResponse (fun _ => .ok (Envelope.mk false "boom" ())) "body" =
      .error (.plainError "birdeye api error: boom")
    ∧ GoError.errMsg (.plainError "birdeye api error: boom") ≠ "boom"
    ∧ parseResponse (fun _ => .ok (Envelope.mk false "" ())) "body" =
      .error (.plainError "birdeye api returned success=false")
    ∧ GoError.errMsg (.plainError "birdeye api returned success=false")
        ≠ "operation unsuccessful" := by
  refine ⟨by decide, by decide, by decide, by decide⟩

/-- Claim C3 (amended): for every body that decodes to a well-formed
envelope with success false, parseResponse fails with an error that is
not an APIError (IsAPIError finds nothing in it); the error message is
"birdeye api error: " followed by the server-supplied envelope message
when that message is non-empty, else the fixed generic message
"birdeye api returned success=false". -/
theorem parseResponse_success_false {T : Type} (um : String → Except String (Envelope T))
    (body : String) (env : Envelope T) (hum : um body = .ok env)
    (hf : env.success = false) :
    parseResponse um body =
      .error (.plainError (if env.message ≠ "" then "birdeye api error: " ++ env.message
        else "birdeye api returned success=false"))
    ∧ (∀ m : String, IsAPIError (.plainError m) = none) := by
  constructor
  · unfold parseResponse
    rw [hum]
    by_cases hm : env.message = ""
    · simp [hf, hm]
    · simp [hf, hm]
  · intro m
    rfl

/-- Witness for parseResponse_success_false at a concrete failing
envelope. -/
theorem parseResponse_success_false_witness :
    parseResponse (fun _ => .ok (Envelope.mk false "oops" ())) "b" =
      .error (.plainError (if ("oops" : String) ≠ "" then "birdeye api error: " ++ "oops"
        else "birdeye api returned success=false")) :=
  (parseResponse_success_false (fun _ => .ok (Envelope.mk false "oops" ())) "b"
    (Envelope.mk false "oops" ()) rfl rfl).1

/-- Claim C4: doGet turns every executed non-200 response into an
APIError carrying the status, the full body as the message and the
requested path; a 200 response yields the raw body unchanged; exactly
one request is issued; and a 404 at /defi/token_overview is a
not-found, not-rate-limited APIError. -/
theorem doGet_status_handling (cl : ClientV) (net : Net) (path : String)
    (params : List (String × String)) (status : Int) (body : String)
    (h1 : net.mkReqErr (requestURL cl net path params) = none)
    (h2 : net.exec (mkRequest cl (requestURL cl net path params)) =
      .ok (HTTPResponse.mk status (.ok body))) :
    (status ≠ 200 → (doGet cl net path params).1 = .error (.apiError status body path))
    ∧ (status = 200 → (doGet cl net path params).1 = .ok body)
    ∧ (doGet cl net path params).2 = [mkRequest cl (requestURL cl net path params)]
    ∧ (status = 404 → path = "/defi/token_overview" →
        (doGet cl net path params).1 = .error (.apiError 404 body "/defi/token_overview")
        ∧ (APIError.mk 404 body "/defi/token_overview").IsNotFound = true
        ∧ (APIError.mk 404 body "/defi/token_overview").IsRateLimited = false) := by
  have hs := doGet_shape cl net path params status body h1 h2
  refine ⟨?_, ?_, ?_, ?_⟩
  · intro hne
    rw [hs]
    simp [hne]
  · intro he
    rw [hs]
    simp [he]
  · rw [hs]
  · intro h404 hpath
    subst h404
    subst hpath
    rw [hs]
    exact ⟨by simp, by simp [APIError.IsNotFound], by simp [APIError.IsRateLimited]⟩

/-- Witness for doGet_status_handling: a 404 with body "nf" at the
token overview path yields the corresponding APIError. -/
theorem doGet_status_handling_witness :
    (doGet testClient (netConst 404 "nf") "/defi/token_overview" [("address", "a")]).1 =
      .error (.apiError 404 "nf" "/defi/token_overview") :=
  (doGet_status_handling testClient (netConst 404 "nf") "/defi/token_overview"
    [("address", "a")] 404 "nf" rfl rfl).1 (by decide)

/-- Claim C5: a key list containing an empty string makes
GetMultiplePrices fail before any chunk request is built or sent: the
result is the validation error (realized as a status-400 APIError) and
the request trace is empty. -/
theorem getMultiplePrices_empty_key (cl : ClientV) (net : Net)
    (um : String → Except String (Envelope GoMap)) (addresses : List String)
    (h : "" ∈ addresses) :
    GetMultiplePrices cl net um addresses =
      (.error (.apiError 400 "address list contains empty string" "/defi/multi_price"), []) := by
  have hne : addresses.isEmpty = false := by
    cases addresses with
    | nil => simp at h
    | cons a t => rfl
  have hany : addresses.any (fun a => a == "") = true := by
    rw [List.any_eq_true]
    exact ⟨"", h, by simp⟩
  simp [GetMultiplePrices, hne, hany]

/-- Witness for getMultiplePrices_empty_key at the list with one empty
key. -/
theorem getMultiplePrices_empty_key_witness :
    GetMultiplePrices testClient (netConst 200 "b") (fun _ => .error "x") [""] =
      (.error (.apiError 400 "address list contains empty string" "/defi/multi_price"), []) :=
  getMultiplePrices_empty_key testClient (netConst 200 "b") (fun _ => .error "x") [""]
    (by decide)

/-- Claim C6: GetMultiplePrices is all-or-nothing: when the chunks
before position j succeed and chunk j fails (in transport or in
envelope decoding), the call returns exactly that error and no
mapping; the partial merges of the earlier chunks are discarded. -/
theorem getMultiplePrices_all_or_nothing (cl : ClientV) (net : Net)
    (um : String → Except String (Envelope GoMap)) (addresses : List String)
    (cs₁ cs₂ : List (List String)) (c : List String) (f : List String → GoMap)
    (e : GoError)
    (hnm : ∀ a ∈ addresses, a ≠ "")
    (hsplit : chunks100 addresses = cs₁ ++ c :: cs₂)
    (hok : ∀ x ∈ cs₁, chunkFetch cl net um x = .ok (f x))
    (hfail : chunkFetch cl net um c = .error e) :
    (GetMultiplePrices cl net um addresses).1 = .error e := by
  have hne : addresses ≠ [] := by
    intro hz
    subst hz
    rw [chunks100_nil] at hsplit
    have h2 := hsplit.symm
    rw [List.append_eq_nil] at h2
    exact absurd h2.2 (List.cons_ne_nil c cs₂)
  rw [getMultiplePrices_unfold cl net um addresses hne hnm, hsplit]
  exact getMultiLoop_err_after cl net um c cs₂ e f hfail cs₁ [] hok

/-- Witness for getMultiplePrices_all_or_nothing: a one-chunk batch
whose only chunk gets a 500 response returns that APIError. -/
theorem getMultiplePrices_all_or_nothing_witness :
    (GetMultiplePrices testClient (netConst 500 "boom") (fun _ => .error "x") ["a"]).1 =
      .error (.apiError 500 "boom" "/defi/multi_price") :=
  getMultiplePrices_all_or_nothing testClient (netConst 500 "boom") (fun _ => .error "x")
    ["a"] [] [] ["a"] (fun _ => []) (.apiError 500 "boom" "/defi/multi_price")
    (by decide) (by decide) (by decide) (by decide)

/-- Claim C2: for a list of keys that are all non-empty, when every
chunk request succeeds, GetMultiplePrices issues exactly one request
per 100-key chunk (so ceil(N/100) requests, each chunk at most 100
consecutive keys joined with commas into the single query parameter),
and returns the union of the decoded per-chunk maps merged in
chunk-issue order with last write winning; a 150-key list splits into
chunks of 100 and 50, and an empty list yields an empty map with zero
requests and no error. -/
theorem getMultiplePrices_chunking (cl : ClientV) (net : Net)
    (um : String → Except String (Envelope GoMap)) (addresses : List String)
    (f : List String → GoMap)
    (hnm : ∀ a ∈ addresses, a ≠ "")
    (hf : ∀ c ∈ chunks100 addresses, chunkFetch cl net um c = .ok (f c))
    (hnd : ∀ c ∈ chunks100 addresses, ((f c).map Prod.fst).Nodup) :
    (GetMultiplePrices cl net um addresses).2 =
      (chunks100 addresses).map (multiPriceRequest cl net)
    ∧ (GetMultiplePrices cl net um addresses).2.length = (addresses.length + 99) / 100
    ∧ (∀ c ∈ chunks100 addresses, c.length ≤ 100)
    ∧ (chunks100 addresses).flatten = addresses
    ∧ (GetMultiplePrices cl net um addresses).1 = .ok (mergeAll ((chunks100 addresses).map f))
    ∧ (∀ k, goLookup (mergeAll ((chunks100 addresses).map f)) k =
        lastWins ((chunks100 addresses).map f) k)
    ∧ (addresses.length = 150 → (chunks100 addresses).map List.length = [100, 50])
    ∧ (addresses = [] → GetMultiplePrices cl net um addresses = (.ok [], [])) := by
  have hlook : ∀ k, goLookup (mergeAll ((chunks100 addresses).map f)) k =
      lastWins ((chunks100 addresses).map f) k := by
    intro k
    apply goLookup_mergeAll
    intro m hm
    rcases List.mem_map.mp hm with ⟨c, hc, rfl⟩
    exact hnd c hc
  by_cases hz : addresses = []
  · subst hz
    refine ⟨rfl, rfl, ?_, rfl, rfl, hlook, ?_, fun _ => rfl⟩
    · intro c hc
      rw [chunks100_nil] at hc
      simp at hc
    · intro h
      simp at h
  · have hrun := getMultiplePrices_unfold cl net um addresses hz hnm
    have hloop := getMultiLoop_ok cl net um (chunks100 addresses) f [] hf
    have hres : GetMultiplePrices cl net um addresses =
        (.ok ((chunks100 addresses).foldl (fun a c => mergeInto a (f c)) []),
         (chunks100 addresses).map (multiPriceRequest cl net)) := by
      rw [hrun, hloop]
    have hfold : (chunks100 addresses).foldl (fun a c => mergeInto a (f c)) [] =
        mergeAll ((chunks100 addresses).map f) := by
      unfold mergeAll
      rw [List.foldl_map]
    refine ⟨?_, ?_, chunks100_size addresses, chunks100_flatten addresses, ?_, hlook,
      chunks100_of_length_150 addresses, fun h => absurd h hz⟩
    · rw [hres]
    · rw [hres]
      simp [chunks100_length]
    · rw [hres, hfold]

/-- Witness for getMultiplePrices_chunking: a two-key list forms one
chunk and returns the merged decoded map. -/
theorem getMultiplePrices_chunking_witness :
    (GetMultiplePrices testClient (netConst 200 "body") umMap ["a", "b"]).1 =
      .ok (mergeAll ((chunks100 ["a", "b"]).map (fun _ => testMap))) :=
  (getMultiplePrices_chunking testClient (netConst 200 "body") umMap ["a", "b"]
    (fun _ => testMap) (by decide) (by decide) (by decide)).2.2.2.2.1
